import Mathlib

set_option maxRecDepth 8000

/-!
# Risk simulation platform: formal model

A shallow embedding of the simplex_risk_sim_tool repository.

The repository ships the React frontend (frontend/src) and the project
documentation; the FastAPI backend engine (app/simulation.py, app/schemas.py)
referenced by the docs is not part of the source tree.  The engine definitions
below are therefore modelled from the specification (sections 3 to 6 of
spec.md), as indicated in their doc comments; the frontend definitions
(the Zod response schema, the useSimulation hook) are translated from the
TypeScript sources under src/frontend.

All monetary quantities are modelled as rationals.
-/

/-- Severity distribution kinds (frontend/src/types.ts, spec section 3). -/
inductive LossDistribution where
  | normal
  | lognormal
  | pareto
  deriving DecidableEq, Repr

/-- Modelled from the spec: a risk factor of the backend schema
(spec section 3); the backend schemas module is absent from src/. -/
structure RiskFactor where
  name : String
  frequency : ℚ
  severity_mean : ℚ
  severity_std : ℚ
  distribution : LossDistribution
  correlation : Option ℚ
  is_cat_event : Bool
  geographic_zone : Option String
  deriving DecidableEq, Repr

/-- Modelled from the spec: an insurance layer (spec section 3);
the backend schemas module is absent from src/. -/
structure ActuarialLayer where
  deductible : ℚ
  limit : Option ℚ
  participation : ℚ
  premium_rate : Option ℚ
  deriving DecidableEq, Repr

/-- Scenario metadata (frontend/src/types.ts, spec section 3). -/
structure ScenarioMeta where
  portfolio_value : ℚ
  horizon_months : ℕ
  label : String
  deriving DecidableEq, Repr

/-- Modelled from the spec: a simulation request (spec section 3);
the backend schemas module is absent from src/. -/
structure SimulationRequest where
  trials : ℕ
  seed : Option ℕ
  meta : ScenarioMeta
  factors : List RiskFactor
  layers : List ActuarialLayer
  deriving DecidableEq, Repr

/-- A (level, value) point of the VaR/CVaR lists and of the
OEP/AEP curves (frontend/src/types.ts, spec section 3). -/
structure PercentilePoint where
  level : ℚ
  value : ℚ
  deriving DecidableEq, Repr

/-- One histogram bucket (frontend/src/types.ts, spec section 3).
The source field named end is a Lean keyword and is rendered bucket_end. -/
structure HistogramBucket where
  start : ℚ
  bucket_end : ℚ
  probability : ℚ
  deriving DecidableEq, Repr

/-- Modelled from the spec: the named PML fields (spec section 3);
the backend schemas module is absent from src/. -/
structure PmlValues where
  pml_100y : ℚ
  pml_250y : ℚ
  pml_500y : ℚ
  deriving DecidableEq, Repr

/-- Modelled from the spec: the full backend simulation response of
spec section 6; the backend schemas module is absent from src/. -/
structure SimulationResult where
  mean_loss : ℚ
  loss_std : ℚ
  loss_min : ℚ
  loss_max : ℚ
  var : List PercentilePoint
  cvar : List PercentilePoint
  histogram : List HistogramBucket
  worst_trials : List ℚ
  expected_shortfall : ℚ
  probability_of_loss : ℚ
  burning_cost : ℚ
  loss_ratio : Option ℚ
  layer_losses : List (String × ℚ)
  net_retained_loss : ℚ
  oep_curve : List PercentilePoint
  aep_curve : List PercentilePoint
  pml_values : PmlValues
  cat_event_count : ℕ
  geographic_exposure : List (String × ℚ)
  metadata : ScenarioMeta
  deriving DecidableEq, Repr

/-- Modelled from the spec: the backend random source
(np.random.default_rng per the docs; app/simulation.py is absent from src/)
is modelled as a deterministic linear congruential generator whose state is
threaded through the run in a fixed order (spec section 5). -/
def rngNext (s : ℕ) : ℕ := (1103515245 * s + 12345) % 2 ^ 31

/-- Modelled from the spec: one uniform draw in [0, 1) taken from the
current generator state. -/
def rngUnit (s : ℕ) : ℚ := ((rngNext s % 2 ^ 20 : ℕ) : ℚ) / (2 ^ 20 : ℚ)

/-- Modelled from the spec: the severity sampler of spec section 4.1
(app/simulation.py is absent from src/).  The degenerate parameterizations are
exactly the spec's clauses: a normal factor with zero standard deviation always
draws severity_mean, a lognormal factor with zero mean draws zero, a pareto
factor with zero mean or zero standard deviation draws severity_mean.  The
transcendental normal/lognormal/pareto draws themselves are replaced by a
deterministic, state-threaded, non-negative stand-in (negative draws clamped
to zero as spec section 4.1 requires); no claim below depends on the
distributional shape of the non-degenerate draws. -/
def sampleSeverity (f : RiskFactor) (s : ℕ) : ℚ × ℕ :=
  let u := rngUnit s
  let v :=
    match f.distribution with
    | .normal =>
        if f.severity_std = 0 then f.severity_mean
        else max 0 (f.severity_mean + f.severity_std * (2 * u - 1))
    | .lognormal =>
        if f.severity_mean = 0 then 0
        else max 0 (f.severity_mean + f.severity_std * (2 * u - 1))
    | .pareto =>
        if f.severity_mean = 0 ∨ f.severity_std = 0 then f.severity_mean
        else max 0 (f.severity_mean + f.severity_std * (2 * u - 1))
  (v, rngNext s)

/-- Modelled from the spec: the frequency generator of spec section 4.2
(app/simulation.py is absent from src/).  A factor with frequency zero never
fires, exactly as the spec states.  The Poisson draw itself is transcendental
and is replaced by a deterministic state-threaded stand-in (floor of the rate
plus a Bernoulli step on the fractional part); it is not a Poisson sampler,
which claims depending on the exact count distribution must account for. -/
def sampleCount (f : RiskFactor) (s : ℕ) : ℕ × ℕ :=
  if f.frequency = 0 then (0, rngNext s)
  else
    let u := rngUnit s
    ((⌊f.frequency⌋).toNat + (if u < f.frequency - (⌊f.frequency⌋ : ℚ) then 1 else 0),
     rngNext s)

/-- Per-trial accumulator of the trial aggregator (spec section 4.3):
gross loss, largest single CAT contribution, summed CAT contributions,
whether any CAT factor fired, and per-zone contributions. -/
structure TrialAcc where
  gross : ℚ
  maxCat : ℚ
  aggCat : ℚ
  catHit : Bool
  zones : List (String × ℚ)
  deriving DecidableEq, Repr

/-- The empty per-trial accumulator. -/
def trialInit : TrialAcc :=
  { gross := 0, maxCat := 0, aggCat := 0, catHit := false, zones := [] }

/-- Add a contribution to an ordered zone map, keeping first-seen key order
(spec section 9, dynamically keyed response maps). -/
def addZone (acc : List (String × ℚ)) (z : String) (v : ℚ) : List (String × ℚ) :=
  match acc with
  | [] => [(z, v)]
  | (z', w) :: rest =>
      if z' = z then (z', w + v) :: rest else (z', w) :: addZone rest z v

/-- Modelled from the spec: one factor's effect on one trial
(spec section 4.3; app/simulation.py is absent from src/): the loss
contribution is the event count times a single severity draw. -/
def applyFactor (acc : TrialAcc) (f : RiskFactor) (s : ℕ) : TrialAcc × ℕ :=
  let ks := sampleCount f s
  let vs := sampleSeverity f ks.2
  let c : ℚ := (ks.1 : ℚ) * vs.1
  ({ gross := acc.gross + c
   , maxCat := if f.is_cat_event then max acc.maxCat c else acc.maxCat
   , aggCat := if f.is_cat_event then acc.aggCat + c else acc.aggCat
   , catHit := acc.catHit || (f.is_cat_event && decide (0 < ks.1))
   , zones :=
       match f.geographic_zone with
       | none => acc.zones
       | some z => addZone acc.zones z c }, vs.2)

/-- Modelled from the spec: one full trial folds every factor, in order,
through the shared random state (spec sections 4.3 and 5). -/
def runTrial (factors : List RiskFactor) (s : ℕ) : TrialAcc × ℕ :=
  factors.foldl (fun p f => applyFactor p.1 f p.2) (trialInit, s)

/-- Modelled from the spec: run a fixed number of trials, threading the
random state from trial to trial (spec section 5). -/
def runTrialsAux (factors : List RiskFactor) : ℕ → ℕ → List TrialAcc × ℕ
  | 0, s => ([], s)
  | n + 1, s =>
      let t := runTrial factors s
      let rest := runTrialsAux factors n t.2
      (t.1 :: rest.1, rest.2)

/-- The per-trial outcomes of a run of the engine on a request and seed. -/
def trialOutcomes (req : SimulationRequest) (seed : ℕ) : List TrialAcc :=
  (runTrialsAux req.factors req.trials seed).1

/-- The per-trial gross-loss array of a run. -/
def grossLosses (req : SimulationRequest) (seed : ℕ) : List ℚ :=
  (trialOutcomes req seed).map TrialAcc.gross

/-- The per-trial largest-single-CAT-contribution array of a run
(the input of the OEP curve, spec section 4.3). -/
def catMaxLosses (req : SimulationRequest) (seed : ℕ) : List ℚ :=
  (trialOutcomes req seed).map TrialAcc.maxCat

/-- The per-trial aggregate-CAT-contribution array of a run
(the input of the AEP curve, spec section 4.3). -/
def catAggLosses (req : SimulationRequest) (seed : ℕ) : List ℚ :=
  (trialOutcomes req seed).map TrialAcc.aggCat

/-- Arithmetic mean of a list of rationals (the empty mean is zero,
following the zero-denominator convention of rational division). -/
def listMean (xs : List ℚ) : ℚ := xs.sum / (xs.length : ℚ)

/-- Minimum of a loss array (zero on the empty array). -/
def listMin : List ℚ → ℚ
  | [] => 0
  | x :: xs => xs.foldl min x

/-- Maximum of a loss array (zero on the empty array). -/
def listMax : List ℚ → ℚ
  | [] => 0
  | x :: xs => xs.foldl max x

/-- Mean squared deviation from the mean. -/
def listVariance (xs : List ℚ) : ℚ :=
  (xs.map (fun x => (x - listMean xs) ^ 2)).sum / (xs.length : ℚ)

/-- Deterministic rational square-root approximation used to report the
standard deviation of the loss array. -/
def ratSqrt (q : ℚ) : ℚ := ((Nat.sqrt (⌊q * 10 ^ 12⌋).toNat : ℕ) : ℚ) / 10 ^ 6

/-- The loss array sorted ascending. -/
def sortAsc (xs : List ℚ) : List ℚ := List.insertionSort (· ≤ ·) xs

/-- The loss array sorted descending. -/
def sortDesc (xs : List ℚ) : List ℚ := List.insertionSort (fun a b : ℚ => b ≤ a) xs

/-- Modelled from the spec: index of the upper quantile at level q inside a
sorted array of length n (np.quantile in the absent backend), clamped into
bounds. -/
def quantileIdx (n : ℕ) (q : ℚ) : ℕ := min (⌊q * (n : ℚ)⌋).toNat (n - 1)

/-- Modelled from the spec: the upper quantile of a loss array at level q
(spec sections 4.5 and 4.6; app/simulation.py is absent from src/). -/
def quantile (xs : List ℚ) (q : ℚ) : ℚ :=
  (sortAsc xs).getD (quantileIdx xs.length q) 0

/-- Modelled from the spec: conditional tail expectation at level q, the mean
of the losses at or above the VaR threshold for that level (spec section 4.5). -/
def cvarAt (xs : List ℚ) (q : ℚ) : ℚ :=
  listMean (xs.filter (fun x => quantile xs q ≤ x))

/-- The confidence levels configured by default (spec section 4.5). -/
def confidenceLevels : List ℚ := [95 / 100, 99 / 100]

/-- The VaR points of the response. -/
def varPoints (losses : List ℚ) : List PercentilePoint :=
  confidenceLevels.map (fun q => { level := q, value := quantile losses q })

/-- The CVaR points of the response. -/
def cvarPoints (losses : List ℚ) : List PercentilePoint :=
  confidenceLevels.map (fun q => { level := q, value := cvarAt losses q })

/-- Fixed histogram bucket count of the model (spec sections 4.5 and 9: a
fixed, configuration-level bucket count; the concrete backend value is not in
src/, the model fixes twenty). -/
def bucketCount : ℕ := 20

/-- Bucket width of the histogram spanning the loss range. -/
def bucketWidth (lo hi : ℚ) : ℚ := (hi - lo) / (bucketCount : ℚ)

/-- Bucket index of one loss value, clamped into the bucket range. -/
def bucketIdx (lo hi x : ℚ) : ℕ :=
  min (⌊(x - lo) / bucketWidth lo hi⌋).toNat (bucketCount - 1)

/-- Modelled from the spec: the histogram of spec section 4.5, contiguous
non-overlapping buckets spanning the loss range, each bucket's probability
the fraction of trials landing in it (app/simulation.py is absent from src/). -/
def histogramOf (xs : List ℚ) : List HistogramBucket :=
  let lo := listMin xs
  let hi := listMax xs
  (List.range bucketCount).map (fun j : ℕ =>
    { start := lo + (j : ℚ) * bucketWidth lo hi
    , bucket_end := lo + ((j : ℚ) + 1) * bucketWidth lo hi
    , probability :=
        (((xs.filter (fun x => bucketIdx lo hi x = j)).length : ℕ) : ℚ) /
          (xs.length : ℚ) })

/-- The ten worst trial losses, sorted descending (spec section 4.5). -/
def worstTrials (xs : List ℚ) : List ℚ := (sortDesc xs).take 10

/-- Modelled from the spec: the per-trial payout of one layer on gross loss L
(spec section 4.4; app/simulation.py is absent from src/):
excess over the deductible, capped by the limit when one is set,
scaled by participation. -/
def layerPayout (l : ActuarialLayer) (L : ℚ) : ℚ :=
  let excess := max (L - l.deductible) 0
  let capped :=
    match l.limit with
    | none => excess
    | some m => min excess m
  capped * l.participation

/-- Mean per-trial payout of one layer over the loss array. -/
def meanLayerPayout (l : ActuarialLayer) (losses : List ℚ) : ℚ :=
  listMean (losses.map (layerPayout l))

/-- Placeholder layer used only as a getD default. -/
def defaultLayer : ActuarialLayer :=
  { deductible := 0, limit := none, participation := 1, premium_rate := none }

/-- Modelled from the spec: the layer_losses response map, one entry per
configured layer in layer order, keyed by the layer index, valued by the mean
per-trial payout (spec section 4.4). -/
def layerLossesOf (layers : List ActuarialLayer) (losses : List ℚ) : List (String × ℚ) :=
  (List.range layers.length).map
    (fun i : ℕ => (toString i, meanLayerPayout (layers.getD i defaultLayer) losses))

/-- Modelled from the spec: the net retained loss, the mean gross loss minus
the sum of every layer's mean payout (spec section 4.4, additive independent
layers). -/
def netRetainedOf (layers : List ActuarialLayer) (losses : List ℚ) : ℚ :=
  listMean losses - (layers.map (fun l => meanLayerPayout l losses)).sum

/-- Total premium collected over the layers that set a premium rate. -/
def totalPremium (pv : ℚ) (layers : List ActuarialLayer) : ℚ :=
  ((layers.filterMap ActuarialLayer.premium_rate).map (fun r => r * pv)).sum

/-- Modelled from the spec: the loss ratio, total layer losses over total
premium, reported as an absent metric when no layer sets a premium rate so
that no division by zero is ever performed (spec sections 4.4 and 7). -/
def lossRatioOf (pv : ℚ) (layers : List ActuarialLayer) (losses : List ℚ) : Option ℚ :=
  if layers.all (fun l => l.premium_rate.isNone) then none
  else
    some ((layers.map (fun l => meanLayerPayout l losses)).sum / totalPremium pv layers)

/-- The standard return periods of the CAT curves (spec section 4.6). -/
def returnPeriods : List ℕ := [10, 25, 50, 100, 250, 500]

/-- Modelled from the spec: an exceedance curve, one point per standard
return period, valued at the 1 - 1/rp quantile of the given CAT loss array
(spec section 4.6). -/
def curvePoints (arr : List ℚ) : List PercentilePoint :=
  returnPeriods.map (fun rp : ℕ =>
    { level := (rp : ℚ), value := quantile arr (1 - 1 / (rp : ℚ)) })

/-- Modelled from the spec: the named PML fields, extracted from the
occurrence (single-worst-event) curve at the 100, 250 and 500 year points
(spec section 4.6; the OEP versus AEP convention is the spec's open question,
the model extracts from the OEP array). -/
def pmlOf (arr : List ℚ) : PmlValues :=
  { pml_100y := quantile arr (1 - 1 / 100)
  , pml_250y := quantile arr (1 - 1 / 250)
  , pml_500y := quantile arr (1 - 1 / 500) }

/-- Accumulated per-zone contributions over all trials, first-seen order. -/
def zoneTotals (ts : List TrialAcc) : List (String × ℚ) :=
  ts.foldl (fun acc t => t.zones.foldl (fun a p => addZone a p.1 p.2) acc) []

/-- Modelled from the spec: mean attributed loss per geographic zone
(spec section 4.6). -/
def geographicExposure (ts : List TrialAcc) (n : ℕ) : List (String × ℚ) :=
  (zoneTotals ts).map (fun p => (p.1, p.2 / (n : ℚ)))

/-- Modelled from the spec: the orchestrator (spec section 4, step 7;
app/simulation.py is absent from src/).  One run: generate the per-trial
outcomes from the seeded random source, then reduce them into the full
response of spec section 6.  The caller-supplied seed is passed explicitly;
when the request carries no seed the serving layer chooses one, which is the
single non-deterministic step and happens outside this function. -/
def runWithSeed (req : SimulationRequest) (seed : ℕ) : SimulationResult :=
  let ts := trialOutcomes req seed
  let losses := grossLosses req seed
  { mean_loss := listMean losses
  , loss_std := ratSqrt (listVariance losses)
  , loss_min := listMin losses
  , loss_max := listMax losses
  , var := varPoints losses
  , cvar := cvarPoints losses
  , histogram := histogramOf losses
  , worst_trials := worstTrials losses
  , expected_shortfall := listMean (losses.filter (fun x => listMean losses < x))
  , probability_of_loss := ((losses.filter (fun x => 0 < x)).length : ℚ) / (losses.length : ℚ)
  , burning_cost := listMean losses / req.meta.portfolio_value
  , loss_ratio := lossRatioOf req.meta.portfolio_value req.layers losses
  , layer_losses := layerLossesOf req.layers losses
  , net_retained_loss := netRetainedOf req.layers losses
  , oep_curve := curvePoints (catMaxLosses req seed)
  , aep_curve := curvePoints (catAggLosses req seed)
  , pml_values := pmlOf (catMaxLosses req seed)
  , cat_event_count := (ts.filter TrialAcc.catHit).length
  , geographic_exposure := geographicExposure ts req.trials
  , metadata := req.meta }

/-- Frontend risk factor (frontend/src/types.ts): the frontend request type
carries no CAT flag and no geographic zone. -/
structure FrontendRiskFactor where
  name : String
  frequency : ℚ
  severity_mean : ℚ
  severity_std : ℚ
  distribution : LossDistribution
  correlation : Option ℚ
  deriving DecidableEq, Repr

/-- Frontend simulation request (frontend/src/types.ts): trials, optional
seed, metadata and factors; the frontend request type carries no layers. -/
structure FrontendSimulationRequest where
  trials : ℕ
  seed : Option ℤ
  meta : ScenarioMeta
  factors : List FrontendRiskFactor
  deriving DecidableEq, Repr

/-- Frontend simulation result (frontend/src/types.ts and the Zod schema of
frontend/src/api.ts): exactly the eleven fields the schema declares. -/
structure FrontendSimulationResult where
  mean_loss : ℚ
  loss_std : ℚ
  loss_min : ℚ
  loss_max : ℚ
  var : List PercentilePoint
  cvar : List PercentilePoint
  histogram : List HistogramBucket
  worst_trials : List ℚ
  expected_shortfall : ℚ
  probability_of_loss : ℚ
  metadata : ScenarioMeta
  deriving DecidableEq, Repr

/-- simulationResultSchema.parse of frontend/src/api.ts: a non-strict Zod
object schema returns an object holding only the keys it declares, silently
stripping every other key of the backend response (Zod's default unknown-key
policy).  runSimulation returns this parsed value, so this function is the
value delivered to the frontend caller. -/
def parseSimulationResult (d : SimulationResult) : FrontendSimulationResult :=
  { mean_loss := d.mean_loss
  , loss_std := d.loss_std
  , loss_min := d.loss_min
  , loss_max := d.loss_max
  , var := d.var
  , cvar := d.cvar
  , histogram := d.histogram
  , worst_trials := d.worst_trials
  , expected_shortfall := d.expected_shortfall
  , probability_of_loss := d.probability_of_loss
  , metadata := d.metadata }

/-- The state held by the useSimulation hook
(frontend/src/useSimulation.ts, lines 5 to 10). -/
structure SimulationState where
  loading : Bool
  error : Option String
  request : Option FrontendSimulationRequest
  result : Option FrontendSimulationResult
  deriving DecidableEq, Repr

/-- The message stored on a rejected runSimulation promise
(frontend/src/useSimulation.ts, line 41): the rejection value's message when
the rejection is an Error instance, the fallback string otherwise. -/
def rejectionMessage (e : Option String) : String :=
  match e with
  | some msg => msg
  | none => "Simulation failed"

/-- The simulate callback of useSimulation (frontend/src/useSimulation.ts,
lines 32 to 44), as the state transformer of one settled call: the first
setState marks the hook loading and clears the error; on fulfilment the state
is rebuilt with the new request and result; on rejection only loading and
error change, the request and result of the pending state are kept. -/
def simulateCall (payload : FrontendSimulationRequest)
    (outcome : Except (Option String) FrontendSimulationResult)
    (old : SimulationState) : SimulationState :=
  let pending : SimulationState := { old with loading := true, error := none }
  match outcome with
  | .ok res =>
      { loading := false, error := none, request := some payload, result := some res }
  | .error e =>
      { pending with loading := false, error := some (rejectionMessage e) }

/-- Concrete scenario metadata used by the witnesses. -/
def metaW : ScenarioMeta :=
  { portfolio_value := 1000000, horizon_months := 12, label := "Test" }

/-- Concrete non-CAT risk factor used by the witnesses. -/
def factorW : RiskFactor :=
  { name := "Factor 1"
  , frequency := 1 / 2
  , severity_mean := 100000
  , severity_std := 50000
  , distribution := .normal
  , correlation := some 0
  , is_cat_event := false
  , geographic_zone := none }

/-- Concrete layer with a premium rate used by the witnesses. -/
def layerW : ActuarialLayer :=
  { deductible := 100000
  , limit := some 2000000
  , participation := 8 / 10
  , premium_rate := some (15 / 1000) }

/-- Concrete layer without a premium rate used by the witnesses. -/
def layerNoPremium : ActuarialLayer :=
  { deductible := 50000, limit := none, participation := 1, premium_rate := none }

/-- Concrete request with one layer, used by the layer-engine witnesses. -/
def reqLayered : SimulationRequest :=
  { trials := 4, seed := some 1, meta := metaW
  , factors := [factorW], layers := [layerW] }

/-- Concrete request with no layers, used by the no-layer witnesses. -/
def reqNoLayers : SimulationRequest :=
  { trials := 4, seed := some 1, meta := metaW
  , factors := [factorW], layers := [] }

/-- Concrete request whose only layer sets no premium rate. -/
def reqNoPremium : SimulationRequest :=
  { trials := 4, seed := some 1, meta := metaW
  , factors := [factorW], layers := [layerNoPremium] }

/-- Concrete backend response used by the schema-stripping counterexample:
every extended field of spec section 6 is present. -/
def wireResult : SimulationResult :=
  { mean_loss := 100
  , loss_std := 0
  , loss_min := 100
  , loss_max := 100
  , var := [{ level := 95 / 100, value := 100 }, { level := 99 / 100, value := 100 }]
  , cvar := [{ level := 95 / 100, value := 100 }, { level := 99 / 100, value := 100 }]
  , histogram := []
  , worst_trials := [100]
  , expected_shortfall := 0
  , probability_of_loss := 1
  , burning_cost := 1 / 10000
  , loss_ratio := some (1 / 2)
  , layer_losses := [ ( "0", 40)]
  , net_retained_loss := 60
  , oep_curve := []
  , aep_curve := []
  , pml_values := { pml_100y := 0, pml_250y := 0, pml_500y := 0 }
  , cat_event_count := 0
  , geographic_exposure := []
  , metadata := metaW }

/-- The same backend response with a different burning cost, different loss
ratio, different layer losses and a different CAT event count. -/
def wireResult2 : SimulationResult :=
  { wireResult with
      burning_cost := 7
    , loss_ratio := none
    , layer_losses := []
    , net_retained_loss := 0
    , pml_values := { pml_100y := 5, pml_250y := 6, pml_500y := 7 }
    , cat_event_count := 3
    , geographic_exposure := [ ( "Florida", 1)] }

/-! ## Basic structural lemmas -/

theorem runTrialsAux_length (factors : List RiskFactor) :
    ∀ (n s : ℕ), ((runTrialsAux factors n s).1).length = n := by
  intro n
  induction n with
  | zero => intro s; rfl
  | succ m ih => intro s; simp [runTrialsAux, ih]

theorem trialOutcomes_length (req : SimulationRequest) (seed : ℕ) :
    (trialOutcomes req seed).length = req.trials := by
  simp [trialOutcomes, runTrialsAux_length]

theorem grossLosses_length (req : SimulationRequest) (seed : ℕ) :
    (grossLosses req seed).length = req.trials := by
  simp [grossLosses, trialOutcomes_length]

theorem sortAsc_sorted (xs : List ℚ) : List.Sorted (· ≤ ·) (sortAsc xs) :=
  List.sorted_insertionSort (· ≤ ·) xs

theorem sortAsc_perm (xs : List ℚ) : List.Perm (sortAsc xs) xs :=
  List.perm_insertionSort (· ≤ ·) xs

theorem sortAsc_length (xs : List ℚ) : (sortAsc xs).length = xs.length :=
  (sortAsc_perm xs).length_eq

theorem mem_of_mem_sortAsc {xs : List ℚ} {x : ℚ} (hx : x ∈ sortAsc xs) : x ∈ xs :=
  (sortAsc_perm xs).mem_iff.mp hx

/-! ## Quantile lemmas -/

theorem quantileIdx_lt {n : ℕ} (hn : 0 < n) (q : ℚ) : quantileIdx n q < n :=
  lt_of_le_of_lt (Nat.min_le_right _ _) (Nat.sub_lt hn Nat.one_pos)

theorem quantileIdx_mono (n : ℕ) {q1 q2 : ℚ} (h : q1 ≤ q2) :
    quantileIdx n q1 ≤ quantileIdx n q2 := by
  unfold quantileIdx
  exact min_le_min
    (Int.toNat_le_toNat (Int.floor_mono
      (mul_le_mul_of_nonneg_right h (Nat.cast_nonneg n)))) le_rfl

theorem sorted_getD_mono {xs : List ℚ} (hs : List.Sorted (· ≤ ·) xs)
    {i j : ℕ} (hij : i ≤ j) (hj : j < xs.length) :
    xs.getD i 0 ≤ xs.getD j 0 := by
  have hi : i < xs.length := lt_of_le_of_lt hij hj
  rw [List.getD_eq_getElem?_getD, List.getD_eq_getElem?_getD,
    List.getElem?_eq_getElem hi, List.getElem?_eq_getElem hj]
  exact hs.rel_get_of_le (a := ⟨i, hi⟩) (b := ⟨j, hj⟩) hij

theorem quantile_mono {xs : List ℚ} (hn : 0 < xs.length) {q1 q2 : ℚ}
    (h : q1 ≤ q2) : quantile xs q1 ≤ quantile xs q2 := by
  unfold quantile
  have hlen : (sortAsc xs).length = xs.length := sortAsc_length xs
  exact sorted_getD_mono (sortAsc_sorted xs) (quantileIdx_mono xs.length h)
    (by rw [hlen]; exact quantileIdx_lt hn q2)

theorem quantile_mem {xs : List ℚ} (hn : 0 < xs.length) (q : ℚ) :
    quantile xs q ∈ xs := by
  unfold quantile
  have hi : quantileIdx xs.length q < (sortAsc xs).length := by
    rw [sortAsc_length]; exact quantileIdx_lt hn q
  rw [List.getD_eq_getElem?_getD, List.getElem?_eq_getElem hi]
  exact mem_of_mem_sortAsc (List.getElem_mem hi)

theorem getD_zero_of_all_zero {xs : List ℚ} (hz : ∀ x ∈ xs, x = 0) (i : ℕ) :
    xs.getD i 0 = 0 := by
  rw [List.getD_eq_getElem?_getD]
  rcases h : xs[i]? with _ | v
  · rfl
  · exact hz v (List.getElem?_mem h)

theorem quantile_of_all_zero {xs : List ℚ} (hz : ∀ x ∈ xs, x = 0) (q : ℚ) :
    quantile xs q = 0 := by
  unfold quantile
  exact getD_zero_of_all_zero (fun x hx => hz x (mem_of_mem_sortAsc hx)) _

/-! ## Mean and conditional-tail lemmas -/

theorem listMean_ge {xs : List ℚ} {t : ℚ} (h : ∀ x ∈ xs, t ≤ x)
    (hne : xs ≠ []) : t ≤ listMean xs := by
  have hlen : 0 < (xs.length : ℚ) := by
    exact_mod_cast List.length_pos.mpr hne
  rw [listMean, le_div_iff₀ hlen]
  have hs := List.card_nsmul_le_sum xs t h
  rwa [nsmul_eq_mul, mul_comm] at hs

theorem filter_split_sum (p q : ℚ → Bool) (himp : ∀ x, q x = true → p x = true)
    (xs : List ℚ) :
    (xs.filter p).sum =
      (xs.filter q).sum + (xs.filter (fun x => p x && !q x)).sum := by
  induction xs with
  | nil => simp
  | cons x xs ih =>
    rcases Bool.eq_false_or_eq_true (q x) with hq | hq
    · have hp := himp x hq
      simp [List.filter_cons, hp, hq, ih]
      ring
    · rcases Bool.eq_false_or_eq_true (p x) with hp | hp
      · simp [List.filter_cons, hp, hq, ih]
        ring
      · simp [List.filter_cons, hp, hq, ih]

theorem filter_split_length (p q : ℚ → Bool) (himp : ∀ x, q x = true → p x = true)
    (xs : List ℚ) :
    (xs.filter p).length =
      (xs.filter q).length + (xs.filter (fun x => p x && !q x)).length := by
  induction xs with
  | nil => simp
  | cons x xs ih =>
    rcases Bool.eq_false_or_eq_true (q x) with hq | hq
    · have hp := himp x hq
      simp [List.filter_cons, hp, hq, ih]
      omega
    · rcases Bool.eq_false_or_eq_true (p x) with hp | hp
      · simp [List.filter_cons, hp, hq, ih]
        omega
      · simp [List.filter_cons, hp, hq, ih]

theorem listMean_filter_ge_mono (xs : List ℚ) {t1 t2 : ℚ} (h12 : t1 ≤ t2)
    (hne : xs.filter (fun x => t2 ≤ x) ≠ []) :
    listMean (xs.filter (fun x => t1 ≤ x)) ≤
      listMean (xs.filter (fun x => t2 ≤ x)) := by
  have himp : ∀ x : ℚ, decide (t2 ≤ x) = true → decide (t1 ≤ x) = true := by
    intro x hx
    exact decide_eq_true (le_trans h12 (of_decide_eq_true hx))
  have hsum := filter_split_sum (fun x => decide (t1 ≤ x))
    (fun x => decide (t2 ≤ x)) himp xs
  have hlen := filter_split_length (fun x => decide (t1 ≤ x))
    (fun x => decide (t2 ≤ x)) himp xs
  set A2 := xs.filter (fun x => decide (t2 ≤ x)) with hA2def
  set B := xs.filter (fun x => decide (t1 ≤ x) && !decide (t2 ≤ x)) with hBdef
  have hBle : ∀ x ∈ B, x ≤ t2 := by
    intro x hx
    have hx2 := (List.mem_filter.mp hx).2
    rcases Bool.and_eq_true_iff.mp hx2 with ⟨_, hnot⟩
    have : decide (t2 ≤ x) = false := by
      cases hdec : decide (t2 ≤ x) with
      | false => rfl
      | true => rw [hdec] at hnot; exact absurd hnot (by simp)
    exact le_of_not_le (of_decide_eq_false this)
  have hBsum : B.sum ≤ (B.length : ℚ) * t2 := by
    have := List.sum_le_card_nsmul B t2 hBle
    rwa [nsmul_eq_mul] at this
  have hA2sum : (A2.length : ℚ) * t2 ≤ A2.sum := by
    have hmem : ∀ x ∈ A2, t2 ≤ x := by
      intro x hx
      exact of_decide_eq_true (List.mem_filter.mp hx).2
    have := List.card_nsmul_le_sum A2 t2 hmem
    rwa [nsmul_eq_mul] at this
  have hA2pos : 0 < (A2.length : ℚ) := by
    exact_mod_cast List.length_pos.mpr hne
  have hBnonneg : (0 : ℚ) ≤ (B.length : ℚ) := Nat.cast_nonneg _
  rw [listMean, listMean, hsum, hlen]
  have hA1pos : 0 < ((A2.length + B.length : ℕ) : ℚ) := by
    push_cast
    linarith
  rw [div_le_div_iff₀ hA1pos hA2pos]
  push_cast
  nlinarith [mul_le_mul_of_nonneg_right hBsum (le_of_lt hA2pos),
    mul_le_mul_of_nonneg_right hA2sum hBnonneg]

theorem cvarAt_ge_quantile {xs : List ℚ} (hn : 0 < xs.length) (q : ℚ) :
    quantile xs q ≤ cvarAt xs q := by
  unfold cvarAt
  have htmem : quantile xs q ∈ xs := quantile_mem hn q
  have hmem : quantile xs q ∈ xs.filter (fun x => quantile xs q ≤ x) :=
    List.mem_filter.mpr ⟨htmem, by simp⟩
  exact listMean_ge (fun x hx => of_decide_eq_true (List.mem_filter.mp hx).2)
    (List.ne_nil_of_mem hmem)

theorem cvarAt_mono {xs : List ℚ} (hn : 0 < xs.length) {q1 q2 : ℚ}
    (h : q1 ≤ q2) : cvarAt xs q1 ≤ cvarAt xs q2 := by
  unfold cvarAt
  apply listMean_filter_ge_mono xs (quantile_mono hn h)
  have htmem : quantile xs q2 ∈ xs := quantile_mem hn q2
  exact List.ne_nil_of_mem (List.mem_filter.mpr ⟨htmem, by simp⟩)

/-! ## Histogram lemmas -/

theorem list_sum_map_add {α : Type} (f g : α → ℕ) (l : List α) :
    (l.map (fun x => f x + g x)).sum = (l.map f).sum + (l.map g).sum := by
  induction l with
  | nil => rfl
  | cons x xs ih =>
    simp only [List.map_cons, List.sum_cons, ih]
    omega

theorem indicator_range_sum_zero (c B : ℕ) (h : B ≤ c) :
    ((List.range B).map (fun j => if c = j then 1 else 0)).sum = 0 := by
  apply List.sum_eq_zero
  intro n hn
  rcases List.mem_map.mp hn with ⟨j, hj, rfl⟩
  have hjB : j < B := List.mem_range.mp hj
  rw [if_neg (by omega)]

theorem indicator_range_sum (c B : ℕ) (h : c < B) :
    ((List.range B).map (fun j => if c = j then 1 else 0)).sum = 1 := by
  induction B with
  | zero => omega
  | succ m ih =>
    rw [List.range_succ, List.map_append, List.sum_append]
    rcases Nat.lt_or_ge c m with hc | hc
    · rw [ih hc]
      simp only [List.map_cons, List.map_nil, List.sum_cons, List.sum_nil]
      rw [if_neg (by omega)]
      omega
    · have hcm : c = m := by omega
      subst hcm
      rw [indicator_range_sum_zero c c le_rfl]
      simp

theorem counts_range_sum (g : ℚ → ℕ) (B : ℕ) (hg : ∀ x, g x < B) (xs : List ℚ) :
    ((List.range B).map
      (fun j => (xs.filter (fun x => g x = j)).length)).sum = xs.length := by
  induction xs with
  | nil =>
    simp only [List.filter_nil, List.length_nil]
    exact List.sum_eq_zero (by
      intro n hn
      rcases List.mem_map.mp hn with ⟨j, _, rfl⟩
      rfl)
  | cons x xs ih =>
    have hsplit : ∀ j ∈ List.range B,
        (List.filter (fun y => decide (g y = j)) (x :: xs)).length =
          (if g x = j then 1 else 0) +
            (List.filter (fun y => decide (g y = j)) xs).length := by
      intro j _
      by_cases hx : g x = j
      · simp [List.filter_cons, hx]
        omega
      · simp [List.filter_cons, hx]
    rw [List.map_congr_left hsplit, list_sum_map_add, ih,
      indicator_range_sum (g x) B (hg x), List.length_cons]
    omega

theorem bucketIdx_lt_bucketCount (lo hi x : ℚ) : bucketIdx lo hi x < bucketCount :=
  lt_of_le_of_lt (Nat.min_le_right _ _) (by norm_num [bucketCount])

theorem list_map_div_sum {α : Type} (l : List α) (f : α → ℚ) (d : ℚ) :
    (l.map (fun x => f x / d)).sum = (l.map f).sum / d := by
  induction l with
  | nil => simp
  | cons x xs ih =>
    simp only [List.map_cons, List.sum_cons, ih, add_div]

theorem histogramOf_prob_sum {xs : List ℚ} (hne : xs.length ≠ 0) :
    ((histogramOf xs).map HistogramBucket.probability).sum = 1 := by
  unfold histogramOf
  rw [List.map_map]
  have heq : (HistogramBucket.probability ∘ fun j : ℕ =>
      ({ start := listMin xs + (j : ℚ) * bucketWidth (listMin xs) (listMax xs)
       , bucket_end :=
           listMin xs + ((j : ℚ) + 1) * bucketWidth (listMin xs) (listMax xs)
       , probability :=
           (((xs.filter
               (fun x => bucketIdx (listMin xs) (listMax xs) x = j)).length : ℕ) : ℚ) /
             (xs.length : ℚ) } : HistogramBucket)) =
      fun j : ℕ =>
        (((xs.filter
            (fun x => bucketIdx (listMin xs) (listMax xs) x = j)).length : ℕ) : ℚ) /
          (xs.length : ℚ) := rfl
  rw [heq, list_map_div_sum]
  have hsum : ((List.range bucketCount).map
      (fun j => (((xs.filter
        (fun x => bucketIdx (listMin xs) (listMax xs) x = j)).length : ℕ) : ℚ))).sum =
      ((xs.length : ℕ) : ℚ) := by
    rw [← counts_range_sum (bucketIdx (listMin xs) (listMax xs)) bucketCount
      (bucketIdx_lt_bucketCount (listMin xs) (listMax xs)) xs]
    rw [Nat.cast_list_sum, List.map_map]
    rfl
  rw [hsum]
  exact div_self (by exact_mod_cast hne)

theorem histogramOf_length (xs : List ℚ) : (histogramOf xs).length = bucketCount := by
  simp [histogramOf]

theorem histogramOf_getD (xs : List ℚ) {i : ℕ} (hi : i < bucketCount) :
    (histogramOf xs).getD i ⟨0, 0, 0⟩ =
      { start := listMin xs + (i : ℚ) * bucketWidth (listMin xs) (listMax xs)
      , bucket_end :=
          listMin xs + ((i : ℚ) + 1) * bucketWidth (listMin xs) (listMax xs)
      , probability :=
          (((xs.filter
              (fun x => bucketIdx (listMin xs) (listMax xs) x = i)).length : ℕ) : ℚ) /
            (xs.length : ℚ) } := by
  unfold histogramOf
  rw [List.getD_eq_getElem?_getD, List.getElem?_map, List.getElem?_range hi]
  rfl

/-! ## No-CAT lemmas -/

theorem foldl_applyFactor_no_cat :
    ∀ (factors : List RiskFactor), (∀ f ∈ factors, f.is_cat_event = false) →
    ∀ (acc : TrialAcc) (s : ℕ), acc.maxCat = 0 → acc.aggCat = 0 → acc.catHit = false →
      ((factors.foldl (fun p f => applyFactor p.1 f p.2) (acc, s)).1.maxCat = 0 ∧
        (factors.foldl (fun p f => applyFactor p.1 f p.2) (acc, s)).1.aggCat = 0 ∧
        (factors.foldl (fun p f => applyFactor p.1 f p.2) (acc, s)).1.catHit = false) := by
  intro factors
  induction factors with
  | nil =>
    intro _ acc s h1 h2 h3
    exact ⟨h1, h2, h3⟩
  | cons f fs ih =>
    intro h acc s h1 h2 h3
    have hf : f.is_cat_event = false := h f (List.mem_cons_self f fs)
    have hfs : ∀ g ∈ fs, g.is_cat_event = false :=
      fun g hg => h g (List.mem_cons_of_mem f hg)
    rw [List.foldl_cons]
    have e1 : (applyFactor acc f s).1.maxCat = 0 := by
      simp [applyFactor, hf, h1]
    have e2 : (applyFactor acc f s).1.aggCat = 0 := by
      simp [applyFactor, hf, h2]
    have e3 : (applyFactor acc f s).1.catHit = false := by
      simp [applyFactor, hf, h3]
    exact ih hfs (applyFactor acc f s).1 (applyFactor acc f s).2 e1 e2 e3

theorem runTrial_no_cat {factors : List RiskFactor}
    (h : ∀ f ∈ factors, f.is_cat_event = false) (s : ℕ) :
    (runTrial factors s).1.maxCat = 0 ∧ (runTrial factors s).1.aggCat = 0 ∧
      (runTrial factors s).1.catHit = false :=
  foldl_applyFactor_no_cat factors h trialInit s rfl rfl rfl

theorem runTrialsAux_no_cat {factors : List RiskFactor}
    (h : ∀ f ∈ factors, f.is_cat_event = false) :
    ∀ (n s : ℕ), ∀ t ∈ (runTrialsAux factors n s).1,
      t.maxCat = 0 ∧ t.aggCat = 0 ∧ t.catHit = false := by
  intro n
  induction n with
  | zero =>
    intro s t ht
    simp [runTrialsAux] at ht
  | succ m ih =>
    intro s t ht
    simp only [runTrialsAux, List.mem_cons] at ht
    rcases ht with rfl | ht
    · exact runTrial_no_cat h s
    · exact ih _ t ht

/-! ## Layer-engine lemmas -/

theorem layerLossesOf_getD (layers : List ActuarialLayer) (losses : List ℚ)
    {i : ℕ} (hi : i < layers.length) :
    (layerLossesOf layers losses).getD i ( "", 0) =
      (toString i, meanLayerPayout (layers.getD i defaultLayer) losses) := by
  unfold layerLossesOf
  rw [List.getD_eq_getElem?_getD, List.getElem?_map, List.getElem?_range hi]
  rfl

theorem list_map_sub_sum (l : List ℚ) (g : ℚ → ℚ) :
    (l.map (fun x => x - g x)).sum = l.sum - (l.map g).sum := by
  induction l with
  | nil => simp
  | cons x xs ih =>
    simp only [List.map_cons, List.sum_cons, ih]
    ring

theorem mean_map_sub (losses : List ℚ) (l : ActuarialLayer) :
    listMean (losses.map (fun L => L - layerPayout l L)) =
      listMean losses - meanLayerPayout l losses := by
  rw [meanLayerPayout, listMean, listMean, listMean, List.length_map,
    List.length_map, list_map_sub_sum, sub_div]

/-! ## Claim theorems -/

/-- Claim C1: for every simulation request and every caller-supplied seed, two
independent runs of the engine on the identical request/seed pair produce
bit-identical SimulationResult values in every field.  In the model the run is
the pure function runWithSeed of the request and the seed, owning the single
seeded random source, so any two runs of the same pair are equal. -/
theorem c1_determinism (req : SimulationRequest) (seed : ℕ)
    (r1 r2 : SimulationResult)
    (h1 : r1 = runWithSeed req seed) (h2 : r2 = runWithSeed req seed) :
    r1 = r2 := by
  rw [h1, h2]

/-- Witness for C1: two runs at a concrete request and seed coincide. -/
theorem c1_determinism_witness :
    runWithSeed reqLayered 1 = runWithSeed reqLayered 1 :=
  c1_determinism reqLayered 1 (runWithSeed reqLayered 1)
    (runWithSeed reqLayered 1) rfl rfl

/-- Claim C2: the layer engine computes each per-trial payout as
min(max(L − deductible, 0), limit) × participation, with no cap when the limit
is unset; the per-trial net is L minus that payout; layer_losses[i] is the
mean of layer i's per-trial payouts over all trials; net_retained_loss is the
mean gross loss minus the sum of all layers' mean payouts. -/
theorem c2_layer_engine (req : SimulationRequest) (seed : ℕ) :
    (∀ (l : ActuarialLayer) (L : ℚ), l.limit = none →
        layerPayout l L = max (L - l.deductible) 0 * l.participation) ∧
    (∀ (l : ActuarialLayer) (L m : ℚ), l.limit = some m →
        layerPayout l L = min (max (L - l.deductible) 0) m * l.participation) ∧
    (∀ l : ActuarialLayer,
        listMean ((grossLosses req seed).map (fun L => L - layerPayout l L)) =
          listMean (grossLosses req seed) -
            meanLayerPayout l (grossLosses req seed)) ∧
    (∀ i : ℕ, i < req.layers.length →
        (runWithSeed req seed).layer_losses.getD i ( "", 0) =
          (toString i,
            meanLayerPayout (req.layers.getD i defaultLayer)
              (grossLosses req seed))) ∧
    (runWithSeed req seed).net_retained_loss =
      listMean (grossLosses req seed) -
        (req.layers.map (fun l => meanLayerPayout l (grossLosses req seed))).sum := by
  refine ⟨?_, ?_, ?_, ?_, ?_⟩
  · intro l L hl
    simp [layerPayout, hl]
  · intro l L m hl
    simp [layerPayout, hl]
  · intro l
    exact mean_map_sub (grossLosses req seed) l
  · intro i hi
    show (layerLossesOf req.layers (grossLosses req seed)).getD i ( "", 0) = _
    exact layerLossesOf_getD req.layers (grossLosses req seed) hi
  · rfl

/-- Witness for C2: the first layer entry of a concrete layered run. -/
theorem c2_layer_engine_witness :
    (runWithSeed reqLayered 1).layer_losses.getD 0 ( "", 0) =
      (toString 0,
        meanLayerPayout (reqLayered.layers.getD 0 defaultLayer)
          (grossLosses reqLayered 1)) :=
  (c2_layer_engine reqLayered 1).2.2.2.1 0 (by decide)

/-- Claim C4: for every request whose layers list is empty, layer_losses is
empty and net_retained_loss equals mean_loss (here exactly, hence within
1e-9). -/
theorem c4_no_layer_identity (req : SimulationRequest) (seed : ℕ)
    (h : req.layers = []) :
    (runWithSeed req seed).layer_losses = [] ∧
    (runWithSeed req seed).net_retained_loss = (runWithSeed req seed).mean_loss ∧
    |(runWithSeed req seed).net_retained_loss -
        (runWithSeed req seed).mean_loss| ≤ 1 / 1000000000 := by
  have h1 : (runWithSeed req seed).layer_losses = [] := by
    show layerLossesOf req.layers (grossLosses req seed) = []
    rw [h]
    rfl
  have h2 : (runWithSeed req seed).net_retained_loss =
      (runWithSeed req seed).mean_loss := by
    show netRetainedOf req.layers (grossLosses req seed) =
      listMean (grossLosses req seed)
    rw [h, netRetainedOf]
    simp
  refine ⟨h1, h2, ?_⟩
  rw [h2]
  simp

/-- Witness for C4 at a concrete request with no layers. -/
theorem c4_no_layer_identity_witness :
    (runWithSeed reqNoLayers 1).layer_losses = [] ∧
    (runWithSeed reqNoLayers 1).net_retained_loss =
      (runWithSeed reqNoLayers 1).mean_loss ∧
    |(runWithSeed reqNoLayers 1).net_retained_loss -
        (runWithSeed reqNoLayers 1).mean_loss| ≤ 1 / 1000000000 :=
  c4_no_layer_identity reqNoLayers 1 rfl

/-- Claim C5: when no layer sets a premium_rate the engine reports loss_ratio
as an absent metric rather than computing a quotient, so no division by zero
occurs; when at least one premium_rate is set, loss_ratio is the sum of the
layers' mean payouts divided by the total premium. -/
theorem c5_loss_ratio_contract (req : SimulationRequest) (seed : ℕ) :
    ((∀ l ∈ req.layers, l.premium_rate = none) →
      (runWithSeed req seed).loss_ratio = none) ∧
    ((∃ l ∈ req.layers, l.premium_rate ≠ none) →
      (runWithSeed req seed).loss_ratio =
        some ((req.layers.map
            (fun l => meanLayerPayout l (grossLosses req seed))).sum /
          totalPremium req.meta.portfolio_value req.layers)) := by
  constructor
  · intro h
    show lossRatioOf req.meta.portfolio_value req.layers
      (grossLosses req seed) = none
    rw [lossRatioOf, if_pos]
    rw [List.all_eq_true]
    intro l hl
    rw [Option.isNone_iff_eq_none]
    exact h l hl
  · intro h
    show lossRatioOf req.meta.portfolio_value req.layers
      (grossLosses req seed) = _
    rw [lossRatioOf, if_neg]
    intro hall
    rcases h with ⟨l, hl, hne⟩
    rw [List.all_eq_true] at hall
    exact hne (Option.isNone_iff_eq_none.mp (hall l hl))

/-- Witness for C5: a run with no premium rate reports an absent loss ratio,
a run with a premium rate reports the quotient. -/
theorem c5_loss_ratio_contract_witness :
    (runWithSeed reqNoPremium 1).loss_ratio = none ∧
    (runWithSeed reqLayered 1).loss_ratio =
      some ((reqLayered.layers.map
          (fun l => meanLayerPayout l (grossLosses reqLayered 1))).sum /
        totalPremium reqLayered.meta.portfolio_value reqLayered.layers) :=
  ⟨(c5_loss_ratio_contract reqNoPremium 1).1 (by decide),
    (c5_loss_ratio_contract reqLayered 1).2
      ⟨layerW, List.mem_singleton_self layerW, Option.some_ne_none _⟩⟩

/-- Claim C6: for every request the histogram bucket probabilities sum to one
(exactly in the model, hence within 1e-6) and the buckets are contiguous and
non-overlapping, partitioning the interval from loss_min to loss_max. -/
theorem c6_histogram_partition (req : SimulationRequest) (seed : ℕ)
    (h : 0 < req.trials) :
    (((runWithSeed req seed).histogram.map HistogramBucket.probability).sum = 1) ∧
    (|((runWithSeed req seed).histogram.map HistogramBucket.probability).sum - 1| ≤
      1 / 1000000) ∧
    (∀ i : ℕ, i + 1 < (runWithSeed req seed).histogram.length →
      ((runWithSeed req seed).histogram.getD (i + 1) ⟨0, 0, 0⟩).start =
        ((runWithSeed req seed).histogram.getD i ⟨0, 0, 0⟩).bucket_end) ∧
    (((runWithSeed req seed).histogram.getD 0 ⟨0, 0, 0⟩).start =
      (runWithSeed req seed).loss_min) ∧
    (((runWithSeed req seed).histogram.getD
        ((runWithSeed req seed).histogram.length - 1) ⟨0, 0, 0⟩).bucket_end =
      (runWithSeed req seed).loss_max) := by
  have hne : (grossLosses req seed).length ≠ 0 := by
    rw [grossLosses_length]
    omega
  have hsum : ((histogramOf (grossLosses req seed)).map
      HistogramBucket.probability).sum = 1 := histogramOf_prob_sum hne
  have hlen : (runWithSeed req seed).histogram.length = bucketCount :=
    histogramOf_length (grossLosses req seed)
  refine ⟨hsum, ?_, ?_, ?_, ?_⟩
  · show |((histogramOf (grossLosses req seed)).map
      HistogramBucket.probability).sum - 1| ≤ 1 / 1000000
    rw [hsum]
    norm_num
  · intro i hi
    have hib : i + 1 < bucketCount := by rw [← hlen]; exact hi
    show ((histogramOf (grossLosses req seed)).getD (i + 1) ⟨0, 0, 0⟩).start =
      ((histogramOf (grossLosses req seed)).getD i ⟨0, 0, 0⟩).bucket_end
    rw [histogramOf_getD _ hib, histogramOf_getD _ (by omega : i < bucketCount)]
    push_cast
    ring
  · have h0 : (0 : ℕ) < bucketCount := by norm_num [bucketCount]
    show ((histogramOf (grossLosses req seed)).getD 0 ⟨0, 0, 0⟩).start =
      listMin (grossLosses req seed)
    rw [histogramOf_getD _ h0]
    push_cast
    ring
  · have hlast : bucketCount - 1 < bucketCount := by norm_num [bucketCount]
    show ((histogramOf (grossLosses req seed)).getD
        ((histogramOf (grossLosses req seed)).length - 1) ⟨0, 0, 0⟩).bucket_end =
      listMax (grossLosses req seed)
    rw [histogramOf_length, histogramOf_getD _ hlast]
    show listMin (grossLosses req seed) +
        (((bucketCount - 1 : ℕ) : ℚ) + 1) *
          ((listMax (grossLosses req seed) - listMin (grossLosses req seed)) /
            (bucketCount : ℚ)) =
      listMax (grossLosses req seed)
    norm_num [bucketCount]
    ring

/-- Witness for C6 at a concrete request. -/
theorem c6_histogram_partition_witness :
    (((runWithSeed reqNoLayers 1).histogram.map
        HistogramBucket.probability).sum = 1) ∧
    (|((runWithSeed reqNoLayers 1).histogram.map
        HistogramBucket.probability).sum - 1| ≤ 1 / 1000000) ∧
    (∀ i : ℕ, i + 1 < (runWithSeed reqNoLayers 1).histogram.length →
      ((runWithSeed reqNoLayers 1).histogram.getD (i + 1) ⟨0, 0, 0⟩).start =
        ((runWithSeed reqNoLayers 1).histogram.getD i ⟨0, 0, 0⟩).bucket_end) ∧
    (((runWithSeed reqNoLayers 1).histogram.getD 0 ⟨0, 0, 0⟩).start =
      (runWithSeed reqNoLayers 1).loss_min) ∧
    (((runWithSeed reqNoLayers 1).histogram.getD
        ((runWithSeed reqNoLayers 1).histogram.length - 1) ⟨0, 0, 0⟩).bucket_end =
      (runWithSeed reqNoLayers 1).loss_max) :=
  c6_histogram_partition reqNoLayers 1 (by decide)

/-- Claim C7: the VaR and CVaR point sequences are non-decreasing in the
confidence level (in particular VaR at 99 percent dominates VaR at 95
percent), and at each configured level the CVaR value dominates the VaR value
at that level. -/
theorem c7_tail_monotonicity (req : SimulationRequest) (seed : ℕ)
    (h : 0 < req.trials) :
    List.Chain' (fun p q : PercentilePoint => p.value ≤ q.value)
      (runWithSeed req seed).var ∧
    List.Chain' (fun p q : PercentilePoint => p.value ≤ q.value)
      (runWithSeed req seed).cvar ∧
    (∀ i : ℕ, i < (runWithSeed req seed).var.length →
      ((runWithSeed req seed).var.getD i ⟨0, 0⟩).value ≤
        ((runWithSeed req seed).cvar.getD i ⟨0, 0⟩).value) := by
  have hlen : 0 < (grossLosses req seed).length := by
    rw [grossLosses_length]
    exact h
  refine ⟨?_, ?_, ?_⟩
  · show List.Chain' _ (varPoints (grossLosses req seed))
    simp only [varPoints, confidenceLevels, List.map_cons, List.map_nil]
    refine List.chain'_cons.mpr ⟨?_, List.chain'_singleton _⟩
    exact quantile_mono hlen (by norm_num)
  · show List.Chain' _ (cvarPoints (grossLosses req seed))
    simp only [cvarPoints, confidenceLevels, List.map_cons, List.map_nil]
    refine List.chain'_cons.mpr ⟨?_, List.chain'_singleton _⟩
    exact cvarAt_mono hlen (by norm_num)
  · intro i hi
    have hi2 : i < 2 := by
      have : (runWithSeed req seed).var.length = 2 := by
        show (varPoints (grossLosses req seed)).length = 2
        simp [varPoints, confidenceLevels]
      omega
    show ((varPoints (grossLosses req seed)).getD i ⟨0, 0⟩).value ≤
      ((cvarPoints (grossLosses req seed)).getD i ⟨0, 0⟩).value
    interval_cases i
    · exact cvarAt_ge_quantile hlen (95 / 100)
    · exact cvarAt_ge_quantile hlen (99 / 100)

/-- Witness for C7 at a concrete request. -/
theorem c7_tail_monotonicity_witness :
    List.Chain' (fun p q : PercentilePoint => p.value ≤ q.value)
      (runWithSeed reqLayered 1).var ∧
    List.Chain' (fun p q : PercentilePoint => p.value ≤ q.value)
      (runWithSeed reqLayered 1).cvar ∧
    (∀ i : ℕ, i < (runWithSeed reqLayered 1).var.length →
      ((runWithSeed reqLayered 1).var.getD i ⟨0, 0⟩).value ≤
        ((runWithSeed reqLayered 1).cvar.getD i ⟨0, 0⟩).value) :=
  c7_tail_monotonicity reqLayered 1 (by decide)

/-- Claim C8: for every request in which no factor is CAT-flagged, the
per-trial max-CAT and aggregate-CAT arrays are all zero, every OEP and AEP
curve value is zero at every return period, and cat_event_count is zero; the
run still produces a full result, so this is a valid non-error state. -/
theorem c8_no_cat_identity (req : SimulationRequest) (seed : ℕ)
    (h : ∀ f ∈ req.factors, f.is_cat_event = false) :
    catMaxLosses req seed = List.replicate req.trials 0 ∧
    catAggLosses req seed = List.replicate req.trials 0 ∧
    (∀ p ∈ (runWithSeed req seed).oep_curve, p.value = 0) ∧
    (∀ p ∈ (runWithSeed req seed).aep_curve, p.value = 0) ∧
    (runWithSeed req seed).cat_event_count = 0 := by
  have hall := runTrialsAux_no_cat h req.trials seed
  have hmax : ∀ x ∈ catMaxLosses req seed, x = 0 := by
    intro x hx
    rcases List.mem_map.mp hx with ⟨t, ht, rfl⟩
    exact (hall t ht).1
  have hagg : ∀ x ∈ catAggLosses req seed, x = 0 := by
    intro x hx
    rcases List.mem_map.mp hx with ⟨t, ht, rfl⟩
    exact (hall t ht).2.1
  have hmaxlen : (catMaxLosses req seed).length = req.trials := by
    rw [catMaxLosses, List.length_map, trialOutcomes_length]
  have hagglen : (catAggLosses req seed).length = req.trials := by
    rw [catAggLosses, List.length_map, trialOutcomes_length]
  refine ⟨List.eq_replicate_iff.mpr ⟨hmaxlen, hmax⟩,
    List.eq_replicate_iff.mpr ⟨hagglen, hagg⟩, ?_, ?_, ?_⟩
  · intro p hp
    show p.value = 0
    have : p ∈ curvePoints (catMaxLosses req seed) := hp
    rcases List.mem_map.mp this with ⟨rp, _, rfl⟩
    exact quantile_of_all_zero hmax _
  · intro p hp
    have : p ∈ curvePoints (catAggLosses req seed) := hp
    rcases List.mem_map.mp this with ⟨rp, _, rfl⟩
    exact quantile_of_all_zero hagg _
  · show ((trialOutcomes req seed).filter TrialAcc.catHit).length = 0
    rw [List.length_eq_zero, List.filter_eq_nil_iff]
    intro t ht
    rw [(hall t ht).2.2]
    simp

/-- Witness for C8 at a concrete request with no CAT-flagged factor. -/
theorem c8_no_cat_identity_witness :
    catMaxLosses reqNoLayers 1 = List.replicate reqNoLayers.trials 0 ∧
    catAggLosses reqNoLayers 1 = List.replicate reqNoLayers.trials 0 ∧
    (∀ p ∈ (runWithSeed reqNoLayers 1).oep_curve, p.value = 0) ∧
    (∀ p ∈ (runWithSeed reqNoLayers 1).aep_curve, p.value = 0) ∧
    (runWithSeed reqNoLayers 1).cat_event_count = 0 :=
  c8_no_cat_identity reqNoLayers 1 (by decide)

/-- Claim C3 counterexample: two backend responses that agree on the eleven
schema fields but differ in burning_cost, layer_losses and cat_event_count
are indistinguishable after the runSimulation Zod parse of
frontend/src/api.ts, so the SimulationResult delivered to the caller does not
contain the extended response fields of spec section 6. -/
theorem c3_strip_counterexample :
    parseSimulationResult wireResult = parseSimulationResult wireResult2 ∧
    wireResult.burning_cost ≠ wireResult2.burning_cost ∧
    wireResult.layer_losses ≠ wireResult2.layer_losses ∧
    wireResult.cat_event_count ≠ wireResult2.cat_event_count := by
  refine ⟨rfl, ?_, ?_, ?_⟩
  · show (1 / 10000 : ℚ) ≠ 7
    norm_num
  · show [ ( "0", (40 : ℚ))] ≠ []
    simp
  · show (0 : ℕ) ≠ 3
    norm_num

/-- Claim C3 (amended): the SimulationResult delivered by runSimulation
contains exactly the eleven fields declared by simulationResultSchema
(mean_loss, loss_std, loss_min, loss_max, var, cvar, histogram, worst_trials,
expected_shortfall, probability_of_loss, metadata), each preserved from the
backend response; the extended fields of spec section 6 (burning_cost,
loss_ratio, layer_losses, net_retained_loss, oep_curve, aep_curve,
pml_values, cat_event_count, geographic_exposure) are stripped by the
schema parse. -/
theorem c3_delivered_fields (d : SimulationResult) :
    (parseSimulationResult d).mean_loss = d.mean_loss ∧
    (parseSimulationResult d).loss_std = d.loss_std ∧
    (parseSimulationResult d).loss_min = d.loss_min ∧
    (parseSimulationResult d).loss_max = d.loss_max ∧
    (parseSimulationResult d).var = d.var ∧
    (parseSimulationResult d).cvar = d.cvar ∧
    (parseSimulationResult d).histogram = d.histogram ∧
    (parseSimulationResult d).worst_trials = d.worst_trials ∧
    (parseSimulationResult d).expected_shortfall = d.expected_shortfall ∧
    (parseSimulationResult d).probability_of_loss = d.probability_of_loss ∧
    (parseSimulationResult d).metadata = d.metadata :=
  ⟨rfl, rfl, rfl, rfl, rfl, rfl, rfl, rfl, rfl, rfl, rfl⟩

/-- Claim C10: when the runSimulation promise underlying the simulate callback
rejects, the hook state afterwards has loading false and error set to the
failure message, while request and result keep exactly their values from
before the call; a new request and result are stored only on fulfilment
(frontend/src/useSimulation.ts, lines 32 to 44). -/
theorem c10_error_preserves_state (p : FrontendSimulationRequest)
    (old : SimulationState) (e : Option String)
    (res : FrontendSimulationResult) :
    (simulateCall p (.error e) old).loading = false ∧
    (simulateCall p (.error e) old).error = some (rejectionMessage e) ∧
    (simulateCall p (.error e) old).request = old.request ∧
    (simulateCall p (.error e) old).result = old.result ∧
    (simulateCall p (.ok res) old).request = some p ∧
    (simulateCall p (.ok res) old).result = some res :=
  ⟨rfl, rfl, rfl, rfl, rfl, rfl⟩
